import Mathlib

/-!
Shallow embedding of the Smartish multiplayer trivia engine
(React/Firebase source: `TriviaGame.jsx`, `utils/scoringService.js`,
`hooks/useScoring.js`, `utils/csvParser.js`, `components/LobbyScreen.jsx`,
`components/HostGameScreen.jsx`).

JS numbers are modelled as `ℚ` (timestamps, durations) and `ℤ` (scores);
nullable fields as `Option`; Firestore documents as Lean structures; a
Firestore `setDoc`/`updateDoc` as a pure state transformation.  Every
definition is translated from the source file named in its doc comment.
-/

namespace Smartish

/-- Session status values stored in the game document
(`TriviaGame.jsx` line 225: `LOBBY, UPLOAD, PLAYING, SCORING, RESULTS`). -/
inductive Status where
  | LOBBY
  | UPLOAD
  | PLAYING
  | SCORING
  | RESULTS
deriving DecidableEq, Repr

/-- A player document (`TriviaGame.jsx` `handleCreateGame`/`handleJoinGame`
player `setDoc` payloads, plus the `answerTimestamp` field written by
`handleAnswerSubmit`).  `timestamp` is the join timestamp. -/
structure Player where
  id : String
  name : String
  score : ℤ
  isHost : Bool
  lastAnswer : Option String
  answerTimestamp : Option ℚ
  timestamp : Option ℚ
deriving DecidableEq, Repr

/-- A question object as produced by `parseCSV` (`utils/csvParser.js`). -/
structure Question where
  id : ℕ
  question : String
  correctAnswer : String
  options : List String
deriving DecidableEq, Repr

/-- The game document (`TriviaGame.jsx` `handleCreateGame` `setDoc` payload). -/
structure GameDoc where
  gameCode : String
  hostUserId : String
  status : Status
  questions : List Question
  currentQuestionIndex : ℤ
  currentQuestionStartTime : Option ℚ
deriving DecidableEq, Repr

/-! ## Scoring service (`utils/scoringService.js`) -/

/-- `MAX_SCORE = 1000` (`utils/scoringService.js`). -/
def MAX_SCORE : ℤ := 1000

/-- `MIN_SCORE = 500` (`utils/scoringService.js`). -/
def MIN_SCORE : ℤ := 500

/-- `QUESTION_DURATION_SECONDS = 30` (`utils/scoringService.js`). -/
def QUESTION_DURATION_SECONDS : ℚ := 30

/-- `calculateScore(responseTimeMs)` from `utils/scoringService.js`:
negative input falls back to `MIN_SCORE`; otherwise
`Math.max(MIN_SCORE, Math.round(MAX_SCORE - (MAX_SCORE - MIN_SCORE) * Math.min(seconds / 30, 1)))`.
JS `Math.round` is `⌊x + 1/2⌋`, which is Mathlib's `round` on `ℚ`. -/
def calculateScore (responseTimeMs : ℚ) : ℤ :=
  if responseTimeMs < 0 then MIN_SCORE
  else
    let seconds := responseTimeMs / 1000
    max MIN_SCORE
      (round ((MAX_SCORE : ℚ) - ((MAX_SCORE : ℤ) - MIN_SCORE : ℤ) *
        min (seconds / QUESTION_DURATION_SECONDS) 1))

/-- JS truthiness of a nullable number: `null` and `0` are falsy. -/
def numTruthy : Option ℚ → Bool
  | none => false
  | some x => decide (x ≠ 0)

/-- JS truthiness of a nullable string: `null` and `""` are falsy. -/
def jsTruthyStr : Option String → Bool
  | none => false
  | some s => decide (s ≠ "")

/-! ## `useScoring` hook (`hooks/useScoring.js`) -/

/-- The per-player score increase computed by the `useScoring` effect body:
players whose `lastAnswer` differs from the correct answer get no update;
otherwise `increase = calculateScore(answerTimestamp - questionStartTime)`
when `answerTimestamp` is truthy, else `calculateScore(0)`. -/
def playerAward (questionStartTime : ℚ) (correctAnswer : String) (p : Player) : ℤ :=
  if p.lastAnswer ≠ some correctAnswer then 0
  else if numTruthy p.answerTimestamp then
    calculateScore (p.answerTimestamp.getD 0 - questionStartTime)
  else calculateScore 0

/-- One `updateDoc` pass of the `useScoring` effect over the roster:
only non-host (`activePlayers`) records are written, each receiving
`score: player.score + increase`. -/
def scorePlayers (questionStartTime : ℚ) (correctAnswer : String)
    (players : List Player) : List Player :=
  players.map fun p =>
    if p.isHost then p
    else { p with score := p.score + playerAward questionStartTime correctAnswer p }

/-- The state held by the `useScoring` hook: the `lastRunQuestionId` marker
plus the player documents it reads and writes. -/
structure ScoringState where
  lastRunQuestionId : Option ℕ
  players : List Player
deriving DecidableEq, Repr

/-- One delivery of the scoring effect (`hooks/useScoring.js` `run`):
returns unchanged unless `showAnswers` is set; the
`lastRunQuestionId === currentQuestion.id` guard prevents duplicates;
otherwise all non-host players are scored and the marker is set. -/
def scoreReveal (currentQuestion : Question) (questionStartTime : ℚ)
    (showAnswers : Bool) (st : ScoringState) : ScoringState :=
  if showAnswers = false then st
  else if st.lastRunQuestionId = some currentQuestion.id then st
  else
    { lastRunQuestionId := some currentQuestion.id
      players := scorePlayers questionStartTime currentQuestion.correctAnswer st.players }

/-! ## Inline scoring effect of `HostGameScreen` (`TriviaGame.jsx` 1391-1444) -/

/-- The `scoreIncrease` computed per player by the inline scoring effect in
`TriviaGame.jsx`: time-based formula when the answer is correct and the
timestamp truthy, flat `1000` fallback when the timestamp is missing,
`0` otherwise. -/
def scoreIncreaseTG (questionStartTime : ℚ) (correctAnswer : String) (p : Player) : ℤ :=
  if p.lastAnswer = some correctAnswer ∧ numTruthy p.answerTimestamp = true then
    let responseTime := p.answerTimestamp.getD 0 - questionStartTime
    let responseTimeSeconds := responseTime / 1000
    max (round ((1000 : ℚ) - 500 * min (responseTimeSeconds / 30) 1)) 500
  else if p.lastAnswer = some correctAnswer then 1000
  else 0

/-! ## Answer submission (`TriviaGame.jsx` `PlayerGameScreen`) -/

/-- `handleAnswerSubmit(answer)` (`TriviaGame.jsx` 1648-1661) together with
the screen dispatch guards under which it is reachable: `PlayerGameScreen`
is only mounted while `status === 'PLAYING'` for a non-host client
(`TriviaGame.jsx` 1004-1006).  The function itself returns early when
`player.lastAnswer` is truthy; otherwise it writes `lastAnswer` and
`answerTimestamp: Date.now()`.  `none` means the player document is left
unchanged. -/
def submitAnswer (status : Status) (p : Player) (answer : String) (now : ℚ) :
    Option Player :=
  if status ≠ Status.PLAYING then none
  else if p.isHost then none
  else if jsTruthyStr p.lastAnswer then none
  else some { p with lastAnswer := some answer, answerTimestamp := some now }

/-! ## Starting the game (`components/LobbyScreen.jsx`) -/

/-- The per-player reset performed by `handleStartGame`
(`LobbyScreen.jsx` line 22): `{ lastAnswer: null, score: 0, answerTimestamp: null }`. -/
def resetPlayerForStart (p : Player) : Player :=
  { p with lastAnswer := none, score := 0, answerTimestamp := none }

/-- Number of non-host players in a roster. -/
def nonHostCount (players : List Player) : ℕ :=
  (players.filter fun p => p.isHost = false).length

/-- `handleStartGame` (`LobbyScreen.jsx` 15-33) together with the guards
under which it is reachable: `LobbyScreen` is only rendered while
`status ∈ {LOBBY, UPLOAD}` (`TriviaGame.jsx` 977), and the Start Game
button is disabled when `questionCount === 0 || players.length < 2`
(`LobbyScreen.jsx` 119).  The function itself returns early unless
`isHost` and the question list is non-empty; on success it resets every
player document and sets `status: 'PLAYING'`, `currentQuestionIndex: 0`,
`currentQuestionStartTime: Date.now()`.  `none` means nothing was written. -/
def handleStartGame (isHost : Bool) (g : GameDoc) (players : List Player)
    (now : ℚ) : Option (GameDoc × List Player) :=
  if ¬(g.status = Status.LOBBY ∨ g.status = Status.UPLOAD) then none
  else if g.questions.length = 0 ∨ players.length < 2 then none
  else if ¬(isHost = true) ∨ g.questions.length = 0 then none
  else
    some ({ g with
              status := Status.PLAYING
              currentQuestionIndex := 0
              currentQuestionStartTime := some now },
          players.map resetPlayerForStart)

/-! ## Joining a game (`TriviaGame.jsx` `handleJoinGame`, 250-288) -/

/-- Firestore `setDoc` on a player document path: a full overwrite of the
record stored under `rec.id`, creating it when absent. -/
def setPlayerDoc (players : List Player) (rec : Player) : List Player :=
  if players.any fun p => p.id = rec.id then
    players.map fun p => if p.id = rec.id then rec else p
  else players ++ [rec]

/-- `handleJoinGame(code)` (`TriviaGame.jsx` 250-288): returns the roster
unchanged when the game is missing or `status` is neither `'LOBBY'` nor
`'UPLOAD'`; otherwise performs `setDoc` of a fresh player record
`{ name, score: 0, isHost: false, lastAnswer: null, timestamp: Date.now() }`
under the caller's identity, overwriting any existing record. -/
def handleJoinGame (g : Option GameDoc) (players : List Player)
    (userId name : String) (now : ℚ) : List Player :=
  match g with
  | none => players
  | some game =>
    if game.status ≠ Status.LOBBY ∧ game.status ≠ Status.UPLOAD then players
    else
      setPlayerDoc players
        { id := userId, name := name, score := 0, isHost := false
          lastAnswer := none, answerTimestamp := none, timestamp := some now }

/-! ## Reveal logic (`components/HostGameScreen.jsx` 17-34,
`TriviaGame.jsx` 1368-1388) -/

/-- `activePlayers = players.filter(p => !p.isHost)`. -/
def activePlayers (players : List Player) : List Player :=
  players.filter fun p => p.isHost = false

/-- `answersSubmitted = activePlayers.filter(p => p.lastAnswer !== null).length`. -/
def answersSubmitted (players : List Player) : ℕ :=
  ((activePlayers players).filter fun p => p.lastAnswer ≠ none).length

/-- `allAnswered = answersSubmitted === activePlayers.length`. -/
def allAnswered (players : List Player) : Bool :=
  answersSubmitted players = (activePlayers players).length

/-- One run of the `HostGameScreen` reveal effect: when
`lobbyState?.status === 'PLAYING' && lobbyState.currentQuestionStartTime`
— the start timestamp tested by JS truthiness, so `null` and `0` are both
falsy — it arms `setTimeout(..., 30000)` (a deadline 30 s after the moment
`now` at which the effect runs) and immediately reveals when `allAnswered`
while `showAnswers`/`isScoring` are clear.  Returns the new `showAnswers`
flag and the armed wall-clock deadline (`none` when no timer is armed). -/
def revealEffect (status : Status) (currentQuestionStartTime : Option ℚ)
    (players : List Player) (showAnswers isScoring : Bool) (now : ℚ) :
    Bool × Option ℚ :=
  if status = Status.PLAYING ∧ numTruthy currentQuestionStartTime = true then
    (if allAnswered players ∧ showAnswers = false ∧ isScoring = false then true
     else showAnswers,
     some (now + 30000))
  else (showAnswers, none)

/-- The `setTimeout` callback: `if (!showAnswers && !isScoring) setShowAnswers(true)`. -/
def timerFire (showAnswers isScoring : Bool) : Bool :=
  if showAnswers = false ∧ isScoring = false then true else showAnswers

/-- The reveal deadline as the specification words it: the persisted
start-timestamp plus the fixed 30 s duration (in ms).  Stated from the
spec for comparison against `revealEffect`; the code arms `now + 30000`
instead. -/
def specRevealDeadline (startTime : ℚ) : ℚ := startTime + 30000

/-! ## Advancing the round (`TriviaGame.jsx` `handleNextQuestion`, 1447-1489) -/

/-- The per-player reset of `handleNextQuestion`:
`{ lastAnswer: null, answerTimestamp: null }`. -/
def resetPlayerAnswer (p : Player) : Player :=
  { p with lastAnswer := none, answerTimestamp := none }

/-- `handleNextQuestion` (`TriviaGame.jsx` 1447-1489): when a further
question exists, writes `currentQuestionIndex: nextIndex` and
`currentQuestionStartTime: Date.now()` on the game document and clears
`lastAnswer`/`answerTimestamp` on every player document; otherwise writes
`status: 'RESULTS'`. -/
def handleNextQuestion (g : GameDoc) (players : List Player) (now : ℚ) :
    GameDoc × List Player :=
  let nextIndex := g.currentQuestionIndex + 1
  if nextIndex < (g.questions.length : ℤ) then
    ({ g with currentQuestionIndex := nextIndex
              currentQuestionStartTime := some now },
     players.map resetPlayerAnswer)
  else ({ g with status := Status.RESULTS }, players)

/-! ## Room codes and game creation (`TriviaGame.jsx` 111-113, 214-248) -/

/-- The base-36 digit characters used by JS `Number.prototype.toString(36)`:
`0`-`9` then `a`-`z`. -/
def base36Char (d : ℕ) : Char :=
  if d < 10 then Char.ofNat (48 + d) else Char.ofNat (97 + (d - 10))

/-- `generateGameCode()` (`TriviaGame.jsx` 111-113):
`Math.random().toString(36).substring(2, 6).toUpperCase()`.  For
`0 < x < 1`, `x.toString(36)` is `"0."` followed by the base-36 digits of
the fraction (trailing zeros omitted; `"0"` for `x = 0`), so
`substring(2, 6)` is the first at-most-four fraction digits.  The digit
list `digits` models the random draw. -/
def generateGameCode (digits : List (Fin 36)) : String :=
  String.mk ((digits.take 4).map fun d => (base36Char d.val).toUpper)

/-- The fresh game document written by `handleCreateGame`
(`TriviaGame.jsx` 222-229). -/
def newGameDoc (code hostUserId : String) : GameDoc :=
  { gameCode := code, hostUserId := hostUserId, status := Status.LOBBY
    questions := [], currentQuestionIndex := -1, currentQuestionStartTime := none }

/-- Firestore `setDoc` on a game document path: full overwrite of the
document stored under `code`, creating it when absent (no existence
check is made first). -/
def setGameDoc (games : List (String × GameDoc)) (code : String) (g : GameDoc) :
    List (String × GameDoc) :=
  if games.any fun e => e.1 = code then
    games.map fun e => if e.1 = code then (code, g) else e
  else games ++ [(code, g)]

/-- `lookupSession`: fetching the game document stored under a code. -/
def lookupGame (games : List (String × GameDoc)) (code : String) : Option GameDoc :=
  (games.find? fun e => e.1 = code).map fun e => e.2

/-- `handleCreateGame` (`TriviaGame.jsx` 214-248): generates a code and
immediately `setDoc`s the fresh game document under it — there is no
lookup, collision check, retry loop or error for an already-live code.
(The host player document it also creates is not modelled here.) -/
def handleCreateGame (games : List (String × GameDoc)) (digits : List (Fin 36))
    (hostUserId : String) : String × List (String × GameDoc) :=
  let newCode := generateGameCode digits
  (newCode, setGameDoc games newCode (newGameDoc newCode hostUserId))

/-! ## CSV parsing (`utils/csvParser.js`) -/

/-- The destructuring swap `[copy[i], copy[j]] = [copy[j], copy[i]]` on a
list; indices out of range leave the list unchanged (the source only ever
swaps in-range indices). -/
def swapIdx {α : Type} (l : List α) (i j : ℕ) : List α :=
  match l[i]?, l[j]? with
  | some a, some b => (l.set i b).set j a
  | _, _ => l

/-- The Fisher-Yates loop of `shuffleArray`: `for (i = len-1; i > 0; i--)`
swapping index `i` with `j = Math.floor(Math.random() * (i + 1))`;
`choice i` models the draw of `j` at iteration `i` (always `≤ i` since
`Math.random() < 1`). -/
def shuffleAux {α : Type} (choice : ℕ → ℕ) : ℕ → List α → List α
  | 0, l => l
  | i + 1, l => shuffleAux choice i (swapIdx l (i + 1) (choice (i + 1)))

/-- `shuffleArray(array)` (`utils/csvParser.js` 5-12). -/
def shuffleArray {α : Type} (choice : ℕ → ℕ) (l : List α) : List α :=
  shuffleAux choice (l.length - 1) l

/-- Splitting a character list at every occurrence of `c`
(the behaviour of JS `String.prototype.split` with a one-character
separator: `"".split(c) = [""]`, separators at the ends produce empty
fields). -/
def splitCharAux (c : Char) : List Char → List (List Char)
  | [] => [[]]
  | ch :: rest =>
    match splitCharAux c rest with
    | [] => if ch = c then [[], []] else [[ch]]
    | x :: xs => if ch = c then [] :: x :: xs else (ch :: x) :: xs

/-- JS `s.split(c)` for a one-character separator `c`. -/
def splitOnChar (c : Char) (s : String) : List String :=
  (splitCharAux c s.toList).map String.mk

/-- JS `s.trim()`: drop whitespace from both ends. -/
def trimStr (s : String) : String :=
  String.mk (((s.toList.dropWhile Char.isWhitespace).reverse.dropWhile
    Char.isWhitespace).reverse)

/-- The `.replace(/^"|"$/g, '')` step: strip one leading and one trailing
double quote. -/
def stripQuote (s : String) : String :=
  let l := s.toList
  let l1 := match l with
    | '\"' :: rest => rest
    | _ => l
  if l1.getLast? = some '\"' then String.mk l1.dropLast else String.mk l1

/-- The per-field normalisation `p.trim().replace(/^"|"$/g, '')`. -/
def normalizeField (s : String) : String := stripQuote (trimStr s)

/-- The body of the `.map((line, index) => ...)` in `parseCSV`: split the
line on `,`, normalise each part, require at least two columns, keep the
truthy (non-empty) options capped at five, require at least two of them,
and shuffle. -/
def parseLine (choice : ℕ → ℕ) (index : ℕ) (line : String) : Option Question :=
  let parts := (splitOnChar ',' line).map normalizeField
  if parts.length < 2 then none
  else
    match parts with
    | question :: correctAnswer :: distractors =>
      let allOptions := (([correctAnswer] ++ distractors).filter fun s => s ≠ "").take 5
      if allOptions.length < 2 then none
      else
        some { id := index, question := question, correctAnswer := correctAnswer
               options := shuffleArray choice allOptions }
    | _ => none

/-- `parseCSV(csvText)` (`utils/csvParser.js` 19-43): split on newlines,
drop blank lines, parse each retained line (its position supplying the
question id), and drop the nulls.  `choice i` supplies the random draws
for line `i`'s shuffle. -/
def parseCSV (choice : ℕ → ℕ → ℕ) (csvText : String) : List Question :=
  if csvText = "" then []
  else
    let lines := (splitOnChar '\n' csvText).filter fun l => trimStr l ≠ ""
    ((lines.enum.map fun x => parseLine (choice x.1) x.1 x.2).reduceOption)

/-! ## Concrete sample data used by witnesses and counterexamples -/

/-- A sample question with two options. -/
def qEx : Question :=
  { id := 0, question := "Q", correctAnswer := "A", options := ["A", "B"] }

/-- A second sample question. -/
def qEx2 : Question :=
  { id := 1, question := "R", correctAnswer := "B", options := ["B", "C"] }

/-- A non-host player who answered correctly but has no answer timestamp. -/
def pCorrectNoTs : Player :=
  { id := "p1", name := "Pat", score := 0, isHost := false
    lastAnswer := some "A", answerTimestamp := none, timestamp := none }

/-- A non-host player who answered incorrectly. -/
def pWrongAns : Player :=
  { id := "p2", name := "Wyn", score := 10, isHost := false
    lastAnswer := some "B", answerTimestamp := some 2000, timestamp := none }

/-- A non-host player whose stored `lastAnswer` is the empty string. -/
def pEmptyAns : Player :=
  { id := "p3", name := "Em", score := 7, isHost := false
    lastAnswer := some "", answerTimestamp := some 1, timestamp := none }

/-- A non-host player who has not answered yet. -/
def pBobEx : Player :=
  { id := "b", name := "Bob", score := 0, isHost := false
    lastAnswer := none, answerTimestamp := none, timestamp := none }

/-- A host player. -/
def pHostEx : Player :=
  { id := "h", name := "Host", score := 0, isHost := true
    lastAnswer := none, answerTimestamp := none, timestamp := none }

/-- A non-host player with an accumulated score and a stale answer. -/
def pAliceEx : Player :=
  { id := "a", name := "Alice", score := 700, isHost := false
    lastAnswer := some "x", answerTimestamp := some 1, timestamp := some 1 }

/-- A game document sitting in the lobby with one loaded question. -/
def gLobbyEx : GameDoc :=
  { gameCode := "AB12", hostUserId := "h", status := Status.LOBBY
    questions := [qEx], currentQuestionIndex := -1, currentQuestionStartTime := none }

/-- A game document mid-play on question 0 of 2. -/
def gPlayingEx : GameDoc :=
  { gameCode := "AB12", hostUserId := "h", status := Status.PLAYING
    questions := [qEx, qEx2], currentQuestionIndex := 0
    currentQuestionStartTime := some 1000 }

/-- A game document mid-play on the last question. -/
def gLastQEx : GameDoc :=
  { gameCode := "AB12", hostUserId := "h", status := Status.PLAYING
    questions := [qEx, qEx2], currentQuestionIndex := 1
    currentQuestionStartTime := some 2000 }

/-- A game document already in the results phase. -/
def gResultsEx : GameDoc :=
  { gameCode := "AB12", hostUserId := "h", status := Status.RESULTS
    questions := [qEx, qEx2], currentQuestionIndex := 1
    currentQuestionStartTime := some 2000 }

/-! ## Helper lemmas -/

/-- `round` on `ℚ` is monotone. -/
lemma roundMonoQ {x y : ℚ} (h : x ≤ y) : round x ≤ round y := by
  rw [round_eq, round_eq]
  exact Int.floor_le_floor (by linarith)

/-- Moving the element at index `k` to the front while writing `c` in its
place is a permutation of pushing `c` on front. -/
lemma cons_set_perm {α : Type} :
    ∀ (xs : List α) (k : ℕ) (h : k < xs.length) (c : α),
      (xs[k] :: xs.set k c).Perm (c :: xs)
  | y :: ys, 0, _, c => List.Perm.swap c y ys
  | y :: ys, k + 1, h, c => by
    have hk : k < ys.length := by simpa using h
    have step1 := List.Perm.swap y (ys[k]) (ys.set k c)
    have step2 := (cons_set_perm ys k hk c).cons y
    have step3 := List.Perm.swap c y ys
    have : (ys[k] :: y :: ys.set k c).Perm (c :: y :: ys) :=
      (step1.trans step2).trans step3
    simpa using this

/-- Writing `b` at index `i` and `a` at index `j`, when `a` and `b` were the
elements at `i` and `j`, permutes the list. -/
lemma swap_set_perm {α : Type} :
    ∀ (l : List α) (i j : ℕ) (a b : α) (hi : i < l.length) (hj : j < l.length),
      l[i] = a → l[j] = b → ((l.set i b).set j a).Perm l
  | x :: xs, 0, 0, a, b, _, _, ha, hb => by
    subst ha; simp
  | x :: xs, 0, j + 1, a, b, _, hj, ha, hb => by
    have hj' : j < xs.length := by simpa using hj
    have hb' : xs[j] = b := by simpa using hb
    subst ha; subst hb'
    simpa using cons_set_perm xs j hj' x
  | x :: xs, i + 1, 0, a, b, hi, _, ha, hb => by
    have hi' : i < xs.length := by simpa using hi
    have ha' : xs[i] = a := by simpa using ha
    subst hb; subst ha'
    simpa using cons_set_perm xs i hi' x
  | x :: xs, i + 1, j + 1, a, b, hi, hj, ha, hb => by
    have hi' : i < xs.length := by simpa using hi
    have hj' : j < xs.length := by simpa using hj
    have ha' : xs[i] = a := by simpa using ha
    have hb' : xs[j] = b := by simpa using hb
    simpa using (swap_set_perm xs i j a b hi' hj' ha' hb').cons x

/-- The destructuring swap is always a permutation. -/
lemma swapIdx_perm {α : Type} (l : List α) (i j : ℕ) : (swapIdx l i j).Perm l := by
  unfold swapIdx
  cases hi : l[i]? with
  | none => exact List.Perm.refl l
  | some a =>
    cases hj : l[j]? with
    | none => exact List.Perm.refl l
    | some b =>
      obtain ⟨hi', ha⟩ := List.getElem?_eq_some.mp hi
      obtain ⟨hj', hb⟩ := List.getElem?_eq_some.mp hj
      exact swap_set_perm l i j a b hi' hj' ha hb

/-- Every stage of the Fisher-Yates loop permutes the list. -/
lemma shuffleAux_perm {α : Type} (choice : ℕ → ℕ) :
    ∀ (n : ℕ) (l : List α), (shuffleAux choice n l).Perm l
  | 0, l => List.Perm.refl l
  | n + 1, l =>
    (shuffleAux_perm choice n (swapIdx l (n + 1) (choice (n + 1)))).trans
      (swapIdx_perm l (n + 1) (choice (n + 1)))

/-- `shuffleArray` returns a permutation of its input for every sequence of
random draws. -/
lemma shuffleArray_perm {α : Type} (choice : ℕ → ℕ) (l : List α) :
    (shuffleArray choice l).Perm l :=
  shuffleAux_perm choice (l.length - 1) l

/-- A second delivery of the same question's reveal leaves the scoring
state unchanged: the `lastRunQuestionId` marker set by the first run makes
the second run return early. -/
lemma scoreReveal_scoreReveal (q : Question) (t : ℚ) (st : ScoringState) :
    scoreReveal q t true (scoreReveal q t true st) = scoreReveal q t true st := by
  by_cases h : st.lastRunQuestionId = some q.id
  · simp [scoreReveal, h]
  · simp [scoreReveal, h]

/-! ## Claim theorems -/

/-- C1: for every question and every number of re-deliveries of its
"revealed" notification, running the `useScoring` effect n+1 times leaves
every player's record — in particular every non-host player's cumulative
score — exactly as after a single run: the `lastRunQuestionId` marker
makes the scoring step idempotent per question id. -/
theorem scoring_runs_once_per_question (q : Question) (t : ℚ)
    (st : ScoringState) (n : ℕ) :
    (scoreReveal q t true)^[n + 1] st = scoreReveal q t true st := by
  induction n with
  | zero => simp
  | succ k ih =>
    rw [Function.iterate_succ_apply' (scoreReveal q t true) (k + 1) st, ih,
      scoreReveal_scoreReveal]

/-- C2 counterexample: a non-host player whose `lastAnswer` matches the
correct answer but whose `answerTimestamp` is missing is awarded
`calculateScore(0) = 1000`, not `MIN = 500` as the claim states. -/
theorem missing_timestamp_not_min_counterexample :
    playerAward 0 "A" pCorrectNoTs ≠ MIN_SCORE ∧
    playerAward 0 "A" pCorrectNoTs = 1000 := by
  constructor
  · norm_num [playerAward, pCorrectNoTs, numTruthy, calculateScore,
      MAX_SCORE, MIN_SCORE, QUESTION_DURATION_SECONDS, round_eq]
  · norm_num [playerAward, pCorrectNoTs, numTruthy, calculateScore,
      MAX_SCORE, MIN_SCORE, QUESTION_DURATION_SECONDS, round_eq]

/-- C2 amended: when scoring a reveal, every player whose `lastAnswer`
equals the question's correct answer but whose `answerTimestamp` is
missing is awarded `MAX = 1000` — by `useScoring` (which falls back to
`calculateScore(0)`) and by the inline `HostGameScreen` effect (which uses
a flat `1000` fallback) alike. -/
theorem missing_timestamp_award_is_max (startT : ℚ) (correct : String)
    (p : Player) (hA : p.lastAnswer = some correct)
    (hT : p.answerTimestamp = none) :
    playerAward startT correct p = MAX_SCORE ∧
    scoreIncreaseTG startT correct p = MAX_SCORE := by
  constructor
  · rw [playerAward]
    norm_num [hA, hT, numTruthy, calculateScore,
      MAX_SCORE, MIN_SCORE, QUESTION_DURATION_SECONDS, round_eq]
  · rw [scoreIncreaseTG]
    norm_num [hA, hT, numTruthy, MAX_SCORE]

/-- C2 amended, witness at a concrete player. -/
theorem missing_timestamp_award_is_max_witness :
    playerAward 0 "A" pCorrectNoTs = MAX_SCORE ∧
    scoreIncreaseTG 0 "A" pCorrectNoTs = MAX_SCORE :=
  missing_timestamp_award_is_max 0 "A" pCorrectNoTs rfl rfl

/-- `calculateScore` is antitone on non-negative response times. -/
lemma calculateScore_antitone {t1 t2 : ℚ} (h0 : 0 ≤ t1) (h12 : t1 ≤ t2) :
    calculateScore t2 ≤ calculateScore t1 := by
  have h02 : 0 ≤ t2 := h0.trans h12
  have k1 : ¬ t1 < 0 := not_lt.mpr h0
  have k2 : ¬ t2 < 0 := not_lt.mpr h02
  simp only [calculateScore, k1, k2, if_false, MAX_SCORE, MIN_SCORE,
    QUESTION_DURATION_SECONDS]
  push_cast
  refine max_le_max le_rfl (roundMonoQ ?_)
  have hm : min (t1 / 1000 / 30) 1 ≤ min (t2 / 1000 / 30) 1 := by
    refine min_le_min ?_ le_rfl
    gcongr
  nlinarith [hm]

/-- `calculateScore` always lands in `[MIN_SCORE, MAX_SCORE]`. -/
lemma calculateScore_bounds (t : ℚ) :
    MIN_SCORE ≤ calculateScore t ∧ calculateScore t ≤ MAX_SCORE := by
  by_cases h : t < 0
  · simp [calculateScore, h, MIN_SCORE, MAX_SCORE]
  · have h0 : 0 ≤ t := not_lt.mp h
    simp only [calculateScore, h, if_false, MAX_SCORE, MIN_SCORE,
      QUESTION_DURATION_SECONDS]
    push_cast
    constructor
    · exact le_max_left _ _
    · refine max_le (by norm_num) ?_
      have hm : (0 : ℚ) ≤ min (t / 1000 / 30) 1 :=
        le_min (by positivity) (by norm_num)
      have : round ((1000 : ℚ) - 500 * min (t / 1000 / 30) 1) ≤ round (1000 : ℚ) :=
        roundMonoQ (by nlinarith)
      simpa using this

/-- C3: for response times `t` seconds (so `1000 * t` ms), the awarded
score for a correct answer is non-increasing in `t`, equals 1000 at
`t = 0`, equals 500 at `t = 30`, and always lies in `[500, 1000]`; a
player whose `lastAnswer` differs from the correct answer (including an
absent answer) is awarded 0. -/
theorem score_time_decay_props :
    (∀ t1 t2 : ℚ, 0 ≤ t1 → t1 ≤ t2 →
      calculateScore (1000 * t2) ≤ calculateScore (1000 * t1)) ∧
    calculateScore (1000 * 0) = 1000 ∧
    calculateScore (1000 * 30) = 500 ∧
    (∀ t : ℚ, MIN_SCORE ≤ calculateScore (1000 * t) ∧
      calculateScore (1000 * t) ≤ MAX_SCORE) ∧
    (∀ (startT : ℚ) (correct : String) (p : Player),
      p.lastAnswer ≠ some correct → playerAward startT correct p = 0) := by
  refine ⟨?_, ?_, ?_, ?_, ?_⟩
  · intro t1 t2 h0 h12
    exact calculateScore_antitone (by positivity) (by nlinarith)
  · norm_num [calculateScore, MAX_SCORE, MIN_SCORE,
      QUESTION_DURATION_SECONDS, round_eq]
  · norm_num [calculateScore, MAX_SCORE, MIN_SCORE,
      QUESTION_DURATION_SECONDS, round_eq]
  · intro t
    exact calculateScore_bounds (1000 * t)
  · intro startT correct p hp
    simp [playerAward, hp]

/-- C3, witness at concrete response times and a concrete wrong answer. -/
theorem score_time_decay_props_witness :
    calculateScore (1000 * 15) ≤ calculateScore (1000 * 0) ∧
    MIN_SCORE ≤ calculateScore (1000 * 15) ∧
    playerAward 0 "A" pWrongAns = 0 :=
  ⟨score_time_decay_props.1 0 15 (by norm_num) (by norm_num),
   (score_time_decay_props.2.2.2.1 15).1,
   score_time_decay_props.2.2.2.2 0 "A" pWrongAns (by decide)⟩

/-- C4 counterexample: `handleAnswerSubmit` guards with JS truthiness of
`player.lastAnswer`, not a null check.  A player whose stored `lastAnswer`
is the empty string — non-null — is not locked: a subsequent submit
succeeds and rewrites `lastAnswer` and `answerTimestamp`. -/
theorem submit_second_write_counterexample :
    pEmptyAns.lastAnswer ≠ none ∧
    submitAnswer Status.PLAYING pEmptyAns "B" 5 =
      some { pEmptyAns with lastAnswer := some "B", answerTimestamp := some 5 } ∧
    submitAnswer Status.PLAYING pEmptyAns "B" 5 ≠ some pEmptyAns ∧
    submitAnswer Status.PLAYING pEmptyAns "B" 5 ≠ none := by decide

/-- C4 amended: a submit succeeds only while the session status is PLAYING
for a non-host player whose `lastAnswer` is null or empty (JS-falsy), and
then writes exactly `lastAnswer`/`answerTimestamp`, leaving score, name
and id unchanged; once `lastAnswer` is a non-empty string, every
subsequent submit call is rejected and leaves the record unchanged
(first non-empty write wins). -/
theorem submit_first_nonempty_write_wins (status : Status) (p : Player)
    (answer : String) (now : ℚ) :
    (∀ r, submitAnswer status p answer now = some r →
      status = Status.PLAYING ∧ p.isHost = false ∧
      jsTruthyStr p.lastAnswer = false ∧
      r.lastAnswer = some answer ∧ r.answerTimestamp = some now ∧
      r.score = p.score ∧ r.name = p.name ∧ r.id = p.id) ∧
    (∀ s, p.lastAnswer = some s → s ≠ "" →
      submitAnswer status p answer now = none) := by
  constructor
  · intro r hr
    by_cases h1 : status = Status.PLAYING
    case neg => simp [submitAnswer, h1] at hr
    by_cases h2 : p.isHost = true
    case pos => simp [submitAnswer, h1, h2] at hr
    by_cases h3 : jsTruthyStr p.lastAnswer = true
    case pos => simp [submitAnswer, h1, h2, h3] at hr
    have hrec : submitAnswer status p answer now =
        some { p with lastAnswer := some answer, answerTimestamp := some now } := by
      simp [submitAnswer, h1, h2, h3]
    rw [hrec] at hr
    obtain rfl := Option.some.inj hr
    exact ⟨h1, by simpa using h2, by simpa using h3, rfl, rfl, rfl, rfl, rfl⟩
  · intro s hs hne
    have ht : jsTruthyStr p.lastAnswer = true := by
      rw [hs]; simp [jsTruthyStr, hne]
    by_cases h1 : status = Status.PLAYING
    · by_cases h2 : p.isHost = true
      · simp [submitAnswer, h1, h2]
      · simp [submitAnswer, h1, h2, ht]
    · simp [submitAnswer, h1]

/-- C4 amended, witness: a locked player (non-empty `lastAnswer`) is
rejected, and a fresh player's submit succeeds with the stated fields. -/
theorem submit_first_nonempty_write_wins_witness :
    submitAnswer Status.PLAYING pAliceEx "B" 5 = none ∧
    (Status.PLAYING = Status.PLAYING ∧ pBobEx.isHost = false ∧
      jsTruthyStr pBobEx.lastAnswer = false ∧
      ({ pBobEx with lastAnswer := some "B", answerTimestamp := some 5 } :
        Player).lastAnswer = some "B" ∧
      ({ pBobEx with lastAnswer := some "B", answerTimestamp := some 5 } :
        Player).answerTimestamp = some 5 ∧
      ({ pBobEx with lastAnswer := some "B", answerTimestamp := some 5 } :
        Player).score = pBobEx.score ∧
      ({ pBobEx with lastAnswer := some "B", answerTimestamp := some 5 } :
        Player).name = pBobEx.name ∧
      ({ pBobEx with lastAnswer := some "B", answerTimestamp := some 5 } :
        Player).id = pBobEx.id) :=
  ⟨(submit_first_nonempty_write_wins Status.PLAYING pAliceEx "B" 5).2
      "x" rfl (by decide),
   (submit_first_nonempty_write_wins Status.PLAYING pBobEx "B" 5).1
      { pBobEx with lastAnswer := some "B", answerTimestamp := some 5 }
      (by decide)⟩

/-- C5 counterexample: the Start Game gate only requires
`players.length ≥ 2` counting the host, so a lobby with the host and a
single non-host player — fewer than the two non-host players the claim
requires — starts successfully instead of failing. -/
theorem startGame_one_nonhost_counterexample :
    nonHostCount [pHostEx, pAliceEx] = 1 ∧
    handleStartGame true gLobbyEx [pHostEx, pAliceEx] 99 ≠ none := by decide

/-- C5 amended: starting the game requires a LOBBY/UPLOAD status, at least
one question and at least two players including the host (the action is
silently unavailable otherwise — no error is raised); on success it sets
status PLAYING, index 0 and the start timestamp to now, and resets every
player's `lastAnswer`, `answerTimestamp` and score. -/
theorem startGame_guard_and_reset (isHost : Bool) (g : GameDoc)
    (players : List Player) (now : ℚ) :
    (handleStartGame isHost g players now ≠ none ↔
      (g.status = Status.LOBBY ∨ g.status = Status.UPLOAD) ∧
      1 ≤ g.questions.length ∧ 2 ≤ players.length ∧ isHost = true) ∧
    (∀ g2 ps2, handleStartGame isHost g players now = some (g2, ps2) →
      g2.status = Status.PLAYING ∧ g2.currentQuestionIndex = 0 ∧
      g2.currentQuestionStartTime = some now ∧ g2.questions = g.questions ∧
      ps2.length = players.length ∧
      ∀ p ∈ ps2, p.lastAnswer = none ∧ p.answerTimestamp = none ∧
        p.score = 0) := by
  constructor
  · by_cases hA : g.status = Status.LOBBY ∨ g.status = Status.UPLOAD
    · by_cases hB : g.questions.length = 0 ∨ players.length < 2
      · have hdef : handleStartGame isHost g players now = none := by
          unfold handleStartGame
          rw [if_neg (not_not_intro hA), if_pos hB]
        refine iff_of_false (by simp [hdef]) ?_
        rintro ⟨-, hq, hp, -⟩
        rcases hB with hB | hB <;> omega
      · by_cases hC : ¬(isHost = true) ∨ g.questions.length = 0
        · have hdef : handleStartGame isHost g players now = none := by
            unfold handleStartGame
            rw [if_neg (not_not_intro hA), if_neg hB, if_pos hC]
          refine iff_of_false (by simp [hdef]) ?_
          rintro ⟨-, hq, -, hh⟩
          rcases hC with hC | hC
          · exact hC hh
          · omega
        · have hdef : handleStartGame isHost g players now =
              some ({ g with status := Status.PLAYING, currentQuestionIndex := 0
                             currentQuestionStartTime := some now },
                    players.map resetPlayerForStart) := by
            unfold handleStartGame
            rw [if_neg (not_not_intro hA), if_neg hB, if_neg hC]
          refine iff_of_true (by simp [hdef]) ?_
          obtain ⟨hq, hp⟩ := not_or.mp hB
          obtain ⟨hh, -⟩ := not_or.mp hC
          exact ⟨hA, by omega, by omega, not_not.mp hh⟩
    · have hdef : handleStartGame isHost g players now = none := by
        unfold handleStartGame
        rw [if_pos hA]
      refine iff_of_false (by simp [hdef]) ?_
      rintro ⟨hs, -, -, -⟩
      exact hA hs
  · intro g2 ps2 h
    by_cases hA : g.status = Status.LOBBY ∨ g.status = Status.UPLOAD
    case neg =>
      unfold handleStartGame at h
      rw [if_pos hA] at h
      exact Option.noConfusion h
    by_cases hB : g.questions.length = 0 ∨ players.length < 2
    case pos =>
      unfold handleStartGame at h
      rw [if_neg (not_not_intro hA), if_pos hB] at h
      exact Option.noConfusion h
    by_cases hC : ¬(isHost = true) ∨ g.questions.length = 0
    case pos =>
      unfold handleStartGame at h
      rw [if_neg (not_not_intro hA), if_neg hB, if_pos hC] at h
      exact Option.noConfusion h
    unfold handleStartGame at h
    rw [if_neg (not_not_intro hA), if_neg hB, if_neg hC] at h
    obtain h' := Option.some.inj h
    injection h' with hg hp
    subst hg; subst hp
    refine ⟨rfl, rfl, rfl, rfl, by simp, ?_⟩
    intro p hp
    obtain ⟨q, -, rfl⟩ := List.mem_map.mp hp
    simp [resetPlayerForStart]

/-- The game document produced by starting `gLobbyEx` at time 99. -/
def gStartedEx : GameDoc :=
  { gLobbyEx with status := Status.PLAYING, currentQuestionIndex := 0
                  currentQuestionStartTime := some 99 }

/-- C5 amended, witness: a lobby with host plus one player and one
question starts, with the stated effects. -/
theorem startGame_guard_and_reset_witness :
    handleStartGame true gLobbyEx [pHostEx, pAliceEx] 99 ≠ none ∧
    (gStartedEx.status = Status.PLAYING ∧
      gStartedEx.currentQuestionIndex = 0 ∧
      gStartedEx.currentQuestionStartTime = some 99 ∧
      gStartedEx.questions = gLobbyEx.questions ∧
      ([pHostEx, pAliceEx].map resetPlayerForStart).length =
        ([pHostEx, pAliceEx] : List Player).length ∧
      ∀ p ∈ [pHostEx, pAliceEx].map resetPlayerForStart,
        p.lastAnswer = none ∧ p.answerTimestamp = none ∧ p.score = 0) :=
  ⟨(startGame_guard_and_reset true gLobbyEx [pHostEx, pAliceEx] 99).1.mpr
      (by decide),
   (startGame_guard_and_reset true gLobbyEx [pHostEx, pAliceEx] 99).2
      gStartedEx ([pHostEx, pAliceEx].map resetPlayerForStart) (by decide)⟩

/-- Any record in the roster after a `setPlayerDoc` that carries the
written record's id is the written record itself. -/
lemma setPlayerDoc_id_eq (players : List Player) (rec : Player) :
    ∀ p ∈ setPlayerDoc players rec, p.id = rec.id → p = rec := by
  intro p hp hid
  unfold setPlayerDoc at hp
  by_cases hany : players.any (fun q => q.id = rec.id)
  · rw [if_pos hany] at hp
    obtain ⟨q, hq, hqe⟩ := List.mem_map.mp hp
    by_cases h : q.id = rec.id
    · rw [if_pos h] at hqe
      exact hqe.symm
    · rw [if_neg h] at hqe
      subst hqe
      exact absurd hid h
  · rw [if_neg hany] at hp
    rcases List.mem_append.mp hp with hp | hp
    · exfalso
      exact hany (List.any_eq_true.mpr ⟨p, hp, by simp [hid]⟩)
    · simpa using hp

/-- C6 counterexample: joining again with an identity that already has a
record is not idempotent — `setDoc` overwrites the record, replacing the
stored name and resetting the accumulated score (here 700) to 0. -/
theorem join_overwrites_existing_counterexample :
    handleJoinGame (some gLobbyEx) [pAliceEx] "a" "New" 9 =
      [{ id := "a", name := "New", score := 0, isHost := false
         lastAnswer := none, answerTimestamp := none, timestamp := some 9 }] ∧
    pAliceEx.score = 700 ∧
    ¬ handleJoinGame (some gLobbyEx) [pAliceEx] "a" "New" 9 = [pAliceEx] := by
  decide

/-- C6 amended: join is allowed only while the session status is LOBBY or
UPLOAD and is silently rejected (roster unchanged) otherwise; joining with
an identity that already has a player record overwrites it with a fresh
record — the newly supplied name, score 0, `isHost` false and a cleared
answer — rather than returning the existing record. -/
theorem join_guard_and_overwrite (g : GameDoc) (players : List Player)
    (userId name : String) (now : ℚ) :
    (g.status ≠ Status.LOBBY ∧ g.status ≠ Status.UPLOAD →
      handleJoinGame (some g) players userId name now = players) ∧
    ((g.status = Status.LOBBY ∨ g.status = Status.UPLOAD) →
      ∀ p ∈ handleJoinGame (some g) players userId name now,
        p.id = userId →
        p.name = name ∧ p.score = 0 ∧ p.isHost = false ∧
        p.lastAnswer = none) := by
  have hred : handleJoinGame (some g) players userId name now =
      (if g.status ≠ Status.LOBBY ∧ g.status ≠ Status.UPLOAD then players
       else setPlayerDoc players
         { id := userId, name := name, score := 0, isHost := false
           lastAnswer := none, answerTimestamp := none
           timestamp := some now }) := rfl
  constructor
  · intro hng
    rw [hred, if_pos hng]
  · intro hok p hp hid
    have hng : ¬(g.status ≠ Status.LOBBY ∧ g.status ≠ Status.UPLOAD) := by
      rcases hok with h | h <;> simp [h]
    rw [hred, if_neg hng] at hp
    have := setPlayerDoc_id_eq players
      { id := userId, name := name, score := 0, isHost := false
        lastAnswer := none, answerTimestamp := none, timestamp := some now }
      p hp hid
    subst this
    exact ⟨rfl, rfl, rfl, rfl⟩

/-- The fresh record written when identity "a" re-joins `gLobbyEx`. -/
def pJoinedEx : Player :=
  { id := "a", name := "New", score := 0, isHost := false
    lastAnswer := none, answerTimestamp := none, timestamp := some 9 }

/-- C6 amended, witness: a RESULTS game rejects the join, and the record
stored after re-joining a LOBBY game has the fresh fields. -/
theorem join_guard_and_overwrite_witness :
    handleJoinGame (some gResultsEx) [pAliceEx] "u9" "New" 9 = [pAliceEx] ∧
    (pJoinedEx.name = "New" ∧ pJoinedEx.score = 0 ∧
      pJoinedEx.isHost = false ∧ pJoinedEx.lastAnswer = none) :=
  ⟨(join_guard_and_overwrite gResultsEx [pAliceEx] "u9" "New" 9).1
      (by decide),
   (join_guard_and_overwrite gLobbyEx [pAliceEx] "a" "New" 9).2
      (by decide) pJoinedEx (by decide) (by decide)⟩

/-- C7 counterexample: the reveal effect arms `setTimeout(..., 30000)` —
30 s from the moment it runs — not from the persisted start-timestamp.
With a round started at 1000 ms and the effect (re-)armed at 21000 ms
(e.g. a host restart 20 s into the round), the code's deadline is
51000 ms while the claimed deadline `start + 30 s` is 31000 ms. -/
theorem reveal_deadline_counterexample :
    (revealEffect Status.PLAYING (some 1000) [pBobEx] false false 21000).2 =
      some 51000 ∧
    specRevealDeadline 1000 = 31000 ∧
    (some (51000 : ℚ) : Option ℚ) ≠ some 31000 := by
  refine ⟨?_, ?_, ?_⟩
  · have h : (revealEffect Status.PLAYING (some 1000) [pBobEx] false false
        21000).2 = some (21000 + 30000) := by
      unfold revealEffect
      rw [if_pos (⟨rfl, by decide⟩ :
        Status.PLAYING = Status.PLAYING ∧
          numTruthy (some (1000 : ℚ)) = true)]
    rw [h]
    norm_num
  · norm_num [specRevealDeadline]
  · norm_num

/-- C7 amended: while the status is PLAYING and the persisted
start-timestamp is truthy (non-null and non-zero), the reveal fires on the
first of (a) every non-host player having a non-null `lastAnswer`
(immediate reveal on the effect run), or (b) 30 seconds elapsing from the
moment the effect was (re-)armed — the deadline is `now + 30000` for the
arming time `now`, not the persisted start-timestamp plus 30 s, so after
a host restart the timer restarts with a full 30-second window; a second
reveal trigger for the same question is a no-op (`showAnswers` stays
`true`). -/
theorem reveal_effect_behavior (status : Status) (startT : Option ℚ)
    (players : List Player) (showAnswers isScoring : Bool) (now : ℚ) :
    (status = Status.PLAYING → numTruthy startT = true →
      (revealEffect status startT players showAnswers isScoring now).2 =
        some (now + 30000)) ∧
    (status = Status.PLAYING → numTruthy startT = true →
      allAnswered players = true →
      showAnswers = false → isScoring = false →
      (revealEffect status startT players showAnswers isScoring now).1 =
        true) ∧
    (revealEffect status startT players true isScoring now).1 = true ∧
    timerFire true isScoring = true ∧
    (showAnswers = false → isScoring = false →
      timerFire showAnswers isScoring = true) := by
  refine ⟨?_, ?_, ?_, ?_, ?_⟩
  · intro h1 h2
    simp [revealEffect, h1, h2]
  · intro h1 h2 h3 h4 h5
    simp [revealEffect, h1, h2, h3, h4, h5]
  · by_cases h : status = Status.PLAYING ∧ numTruthy startT = true
    · simp [revealEffect, h.1, h.2]
    · simp [revealEffect, h]
  · simp [timerFire]
  · intro h4 h5
    simp [timerFire, h4, h5]

/-- C7 amended, witness at a truthy start-timestamp (1000 ms), a concrete
arming time and a roster where the single non-host player has answered. -/
theorem reveal_effect_behavior_witness :
    (revealEffect Status.PLAYING (some 1000) [pAliceEx] false false 21000).2 =
      some (21000 + 30000) ∧
    (revealEffect Status.PLAYING (some 1000) [pAliceEx] false false 21000).1 =
      true ∧
    timerFire false false = true :=
  ⟨(reveal_effect_behavior Status.PLAYING (some 1000) [pAliceEx] false false
      21000).1 rfl (by decide),
   (reveal_effect_behavior Status.PLAYING (some 1000) [pAliceEx] false false
      21000).2.1 rfl (by decide) (by decide) rfl rfl,
   (reveal_effect_behavior Status.PLAYING (some 1000) [pAliceEx] false false
      21000).2.2.2.2 rfl rfl⟩

/-- C8: advancing past a revealed question increments the index by 1,
resets the start-timestamp to now, clears every player's `lastAnswer` and
`answerTimestamp` while preserving every player's score and name (and the
session status); when no further question exists it only sets the status
to RESULTS and leaves the roster untouched. -/
theorem nextQuestion_advance_or_results (g : GameDoc) (players : List Player)
    (now : ℚ) :
    ∀ g2 ps2, handleNextQuestion g players now = (g2, ps2) →
      (g.currentQuestionIndex + 1 < (g.questions.length : ℤ) →
        g2.currentQuestionIndex = g.currentQuestionIndex + 1 ∧
        g2.currentQuestionStartTime = some now ∧
        g2.status = g.status ∧ g2.questions = g.questions ∧
        ps2.length = players.length ∧
        ∀ (i : ℕ) (h1 : i < players.length) (h2 : i < ps2.length),
          ps2[i].lastAnswer = none ∧ ps2[i].answerTimestamp = none ∧
          ps2[i].score = players[i].score ∧
          ps2[i].name = players[i].name) ∧
      (¬ g.currentQuestionIndex + 1 < (g.questions.length : ℤ) →
        g2 = { g with status := Status.RESULTS } ∧ ps2 = players) := by
  intro g2 ps2 h
  constructor
  · intro hlt
    simp only [handleNextQuestion] at h
    rw [if_pos hlt] at h
    injection h with hg hp
    subst hg; subst hp
    refine ⟨rfl, rfl, rfl, rfl, by simp, ?_⟩
    intro i h1 h2
    simp [resetPlayerAnswer]
  · intro hge
    simp only [handleNextQuestion] at h
    rw [if_neg hge] at h
    injection h with hg hp
    exact ⟨hg.symm, hp.symm⟩

/-- C8, witness: advancing from question 0 of 2 bumps the index; advancing
past the last question flips the status to RESULTS and keeps the roster. -/
theorem nextQuestion_advance_or_results_witness :
    (handleNextQuestion gPlayingEx [pHostEx, pAliceEx] 77).1.currentQuestionIndex =
      gPlayingEx.currentQuestionIndex + 1 ∧
    handleNextQuestion gLastQEx [pHostEx, pAliceEx] 77 =
      ({ gLastQEx with status := Status.RESULTS }, [pHostEx, pAliceEx]) := by
  constructor
  · exact ((nextQuestion_advance_or_results gPlayingEx [pHostEx, pAliceEx] 77
      (handleNextQuestion gPlayingEx [pHostEx, pAliceEx] 77).1
      (handleNextQuestion gPlayingEx [pHostEx, pAliceEx] 77).2 rfl).1
      (by decide)).1
  · have h := (nextQuestion_advance_or_results gLastQEx [pHostEx, pAliceEx] 77
      (handleNextQuestion gLastQEx [pHostEx, pAliceEx] 77).1
      (handleNextQuestion gLastQEx [pHostEx, pAliceEx] 77).2 rfl).2
      (by decide)
    exact Prod.ext h.1 h.2

/-- Uppercase alphanumeric characters: `0`-`9` or `A`-`Z`. -/
def isUpperAlnum (c : Char) : Bool :=
  decide (('0' ≤ c ∧ c ≤ '9') ∨ ('A' ≤ c ∧ c ≤ 'Z'))

/-- Every uppercased base-36 digit is uppercase alphanumeric. -/
lemma base36_upper : ∀ d : Fin 36, isUpperAlnum ((base36Char d.val).toUpper) = true := by
  decide

/-- C9 counterexample: `Math.random() = 0.5` has base-36 representation
`"0.i"`, so `substring(2, 6)` is `"i"` and the produced code is `"I"` —
one character, not four. -/
theorem gameCode_length_counterexample :
    (generateGameCode [(18 : Fin 36)]).length = 1 ∧ (1 : ℕ) ≠ 4 := by decide

/-- Looking up the code just written by `setGameDoc` returns the written
document, whatever was stored there before. -/
lemma lookupGame_setGameDoc (games : List (String × GameDoc)) (code : String)
    (g : GameDoc) : lookupGame (setGameDoc games code g) code = some g := by
  unfold setGameDoc
  by_cases hany : games.any (fun e => e.1 = code)
  · rw [if_pos hany]
    induction games with
    | nil => simp at hany
    | cons e es ih =>
      by_cases he : e.1 = code
      · unfold lookupGame
        rw [List.map_cons, if_pos he,
          List.find?_cons_of_pos _ (by simp)]
        rfl
      · have hes : es.any (fun e => e.1 = code) = true := by
          simpa [List.any_cons, he] using hany
        have ihres := ih hes
        unfold lookupGame at ihres ⊢
        rw [List.map_cons, if_neg he,
          List.find?_cons_of_neg _ (by simp [he])]
        exact ihres
  · rw [if_neg hany]
    have hnone : games.find? (fun e => e.1 = code) = none := by
      rw [List.find?_eq_none]
      intro x hx hpx
      exact hany (List.any_eq_true.mpr ⟨x, hx, hpx⟩)
    unfold lookupGame
    induction games with
    | nil => simp
    | cons e es ih =>
      have he : ¬(e.1 = code) := by
        intro he
        exact hany (List.any_eq_true.mpr ⟨e, List.mem_cons_self e es, by simp [he]⟩)
      rw [List.cons_append, List.find?_cons_of_neg _ (by simp [he])]
      refine ih ?_ ?_
      · intro hes
        exact hany (by
          rcases List.any_eq_true.mp hes with ⟨x, hx, hpx⟩
          exact List.any_eq_true.mpr ⟨x, List.mem_cons_of_mem e hx, hpx⟩)
      · rw [List.find?_eq_none]
        intro x hx hpx
        exact hany (List.any_eq_true.mpr ⟨x, List.mem_cons_of_mem e hx, hpx⟩)

/-- C9 amended: a room code consists only of uppercase alphanumeric
characters but its length is `min 4 d` where `d` is the number of base-36
fraction digits of the random draw (only four when the draw has at least
four digits); and session creation performs no collision check: the fresh
game document is stored under the code unconditionally, overwriting any
session already live under that code. -/
theorem gameCode_shape_and_overwrite (digits : List (Fin 36))
    (games : List (String × GameDoc)) (hostUserId : String) :
    (generateGameCode digits).length = min 4 digits.length ∧
    (∀ c ∈ (generateGameCode digits).toList, isUpperAlnum c = true) ∧
    (∀ code games2, handleCreateGame games digits hostUserId = (code, games2) →
      lookupGame games2 code = some (newGameDoc code hostUserId)) := by
  refine ⟨?_, ?_, ?_⟩
  · simp [generateGameCode, String.length_mk]
  · intro c hc
    have hc' : c ∈ (digits.take 4).map fun d => (base36Char d.val).toUpper := hc
    obtain ⟨d, -, rfl⟩ := List.mem_map.mp hc'
    exact base36_upper d
  · intro code games2 h
    simp only [handleCreateGame] at h
    injection h with hc hg
    subst hc; subst hg
    exact lookupGame_setGameDoc games _ _

/-- The base-36 digit list 0,1,2,3,4 (e.g. `Math.random()` printing as
`"0.01234"`). -/
def digitsEx : List (Fin 36) := [0, 1, 2, 3, 4]

/-- C9 amended, witness: the code from `digitsEx` is `"0123"`, and
creating over a store that already holds a session under `"0123"`
overwrites it with the fresh document. -/
theorem gameCode_shape_and_overwrite_witness :
    (generateGameCode digitsEx).length = min 4 digitsEx.length ∧
    isUpperAlnum '0' = true ∧
    lookupGame (handleCreateGame [("0123", gLobbyEx)] digitsEx "h").2
      (handleCreateGame [("0123", gLobbyEx)] digitsEx "h").1 =
      some (newGameDoc (handleCreateGame [("0123", gLobbyEx)] digitsEx "h").1 "h") :=
  ⟨(gameCode_shape_and_overwrite digitsEx [("0123", gLobbyEx)] "h").1,
   (gameCode_shape_and_overwrite digitsEx [("0123", gLobbyEx)] "h").2.1 '0'
     (by decide),
   (gameCode_shape_and_overwrite digitsEx [("0123", gLobbyEx)] "h").2.2
     (handleCreateGame [("0123", gLobbyEx)] digitsEx "h").1
     (handleCreateGame [("0123", gLobbyEx)] digitsEx "h").2 rfl⟩

/-- Inversion of `parseLine`: a produced question records the line's
second normalised field as `correctAnswer` and shuffles the first at most
five non-empty candidate options. -/
lemma parseLine_some {choice : ℕ → ℕ} {i : ℕ} {line : String} {qq : Question}
    (h : parseLine choice i line = some qq) :
    ∃ q c ds, (splitOnChar ',' line).map normalizeField = q :: c :: ds ∧
      qq.question = q ∧ qq.correctAnswer = c ∧
      qq.options =
        shuffleArray choice (((c :: ds).filter fun s => s ≠ "").take 5) ∧
      2 ≤ (((c :: ds).filter fun s => s ≠ "").take 5).length := by
  simp only [parseLine] at h
  split at h
  · exact absurd h (by simp)
  · split at h
    · rename_i q c ds hp
      split at h
      · exact absurd h (by simp)
      · rename_i hlen
        obtain rfl := (Option.some.inj h).symm
        rw [List.singleton_append] at hlen
        exact ⟨q, c, ds, hp, rfl, rfl, rfl, by omega⟩
    · exact absurd h (by simp)

/-- Every question produced by `parseCSV` comes from some retained line
through `parseLine`. -/
lemma parseCSV_mem {choice : ℕ → ℕ → ℕ} {csvText : String} {qq : Question}
    (h : qq ∈ parseCSV choice csvText) :
    ∃ i line,
      (i, line) ∈ ((splitOnChar '\n' csvText).filter fun l => trimStr l ≠ "").enum ∧
      parseLine (choice i) i line = some qq := by
  unfold parseCSV at h
  by_cases hcsv : csvText = ""
  · rw [if_pos hcsv] at h
    simp at h
  · rw [if_neg hcsv] at h
    have h2 := List.reduceOption_mem_iff.mp h
    obtain ⟨x, hx, hfx⟩ := List.mem_map.mp h2
    exact ⟨x.1, x.2, hx, hfx⟩

/-- C10 counterexample: the line `Q,A,A` repeats the correct answer as a
distractor; the produced question's options contain the correct answer
twice, not exactly once. -/
theorem parseCSV_duplicate_option_counterexample :
    parseCSV (fun _ _ => 0) "Q,A,A" =
      [{ id := 0, question := "Q", correctAnswer := "A", options := ["A", "A"] }] ∧
    (["A", "A"].count "A" = 2) := by decide

/-- C10 amended: for every question retained by `parseCSV`, the options
list is a permutation of the first at most five non-empty fields among
the line's correct answer and distractors (so between two and five
entries, all drawn from the line's non-empty answer fields), and the
correct answer occurs in the options exactly as often as it occurs among
those retained fields — at least once whenever it is non-empty, but more
than once when duplicated, and never when it is the empty string. -/
theorem parseCSV_options_perm (choice : ℕ → ℕ → ℕ) (csvText : String) :
    ∀ qq ∈ parseCSV choice csvText,
      ∃ line q c ds,
        line ∈ splitOnChar '\n' csvText ∧ trimStr line ≠ "" ∧
        (splitOnChar ',' line).map normalizeField = q :: c :: ds ∧
        qq.question = q ∧ qq.correctAnswer = c ∧
        qq.options.Perm (((c :: ds).filter fun s => s ≠ "").take 5) ∧
        qq.options.length ≤ 5 ∧ 2 ≤ qq.options.length ∧
        qq.options.count c = (((c :: ds).filter fun s => s ≠ "").take 5).count c ∧
        (c ≠ "" → c ∈ qq.options) ∧
        (∀ s ∈ qq.options, s ∈ c :: ds ∧ s ≠ "") := by
  intro qq hq
  obtain ⟨i, line, henum, hline⟩ := parseCSV_mem hq
  obtain ⟨hi, he⟩ := List.mem_enum henum
  have hlines : line ∈ (splitOnChar '\n' csvText).filter fun l => trimStr l ≠ "" := by
    rw [he]
    exact List.getElem_mem hi
  obtain ⟨hl1, hl2⟩ := List.mem_filter.mp hlines
  obtain ⟨q, c, ds, hp, hq1, hc1, hopt, hlen⟩ := parseLine_some hline
  have hperm : qq.options.Perm
      (((c :: ds).filter fun s => s ≠ "").take 5) := by
    rw [hopt]
    exact shuffleArray_perm _ _
  refine ⟨line, q, c, ds, hl1, by simpa using hl2, hp, hq1, hc1, hperm,
    ?_, ?_, ?_, ?_, ?_⟩
  · rw [hperm.length_eq, List.length_take]
    omega
  · rw [hperm.length_eq]
    exact hlen
  · exact hperm.count_eq c
  · intro hc
    have hfil : ((c :: ds).filter fun s => s ≠ "") =
        c :: (ds.filter fun s => s ≠ "") :=
      List.filter_cons_of_pos (by simp [hc])
    have hct : c ∈ ((c :: ds).filter fun s => s ≠ "").take 5 := by
      rw [hfil]
      exact List.mem_cons_self c _
    exact hperm.mem_iff.mpr hct
  · intro s hs
    have hst := hperm.mem_iff.mp hs
    have hsf : s ∈ (c :: ds).filter fun t => t ≠ "" :=
      List.take_subset 5 _ hst
    obtain ⟨hmem2, hpred⟩ := List.mem_filter.mp hsf
    exact ⟨hmem2, by simpa using hpred⟩

/-- C10 amended, witness at the concrete line `Q,A,B` with the draws all
zero: the produced question is `⟨0, "Q", "A", ["B", "A"]⟩`. -/
theorem parseCSV_options_perm_witness :
    ∃ line q c ds,
      line ∈ splitOnChar '\n' "Q,A,B" ∧ trimStr line ≠ "" ∧
      (splitOnChar ',' line).map normalizeField = q :: c :: ds ∧
      ({ id := 0, question := "Q", correctAnswer := "A", options := ["B", "A"] } :
        Question).question = q ∧
      ({ id := 0, question := "Q", correctAnswer := "A", options := ["B", "A"] } :
        Question).correctAnswer = c ∧
      (["B", "A"] : List String).Perm
        (((c :: ds).filter fun s => s ≠ "").take 5) ∧
      (["B", "A"] : List String).length ≤ 5 ∧
      2 ≤ (["B", "A"] : List String).length ∧
      (["B", "A"] : List String).count c =
        (((c :: ds).filter fun s => s ≠ "").take 5).count c ∧
      (c ≠ "" → c ∈ (["B", "A"] : List String)) ∧
      (∀ s ∈ (["B", "A"] : List String), s ∈ c :: ds ∧ s ≠ "") :=
  parseCSV_options_perm (fun _ _ => 0) "Q,A,B"
    { id := 0, question := "Q", correctAnswer := "A", options := ["B", "A"] }
    (by decide)

end Smartish
